import Mathlib

/-!
Verification of the MLIR affine EDSC declarative builders
(mlir/include/mlir/Dialect/Affine/EDSC/Builders.h).

The development shallowly embeds the construction layer: an emission state
holds a fresh-handle counter, the ordered trace of emitted IR operations and
the insertion-cursor depth.  Every builder call is a pure function from that
state to a result handle and a new state.  The template member operators of
TemplatedIndexedValue are translated from the header source; the external
creation/cursor API they call (createOp, createLoad, createStore, the loop
creation and scoped cursor save/restore) is not part of the source file and
is modelled from the specification.
-/

namespace mlir
namespace edsc

/-- Modelled from the spec: a value handle is an opaque, identity-comparable
reference to a single IR-produced value, supplied by the external IR layer.
We use natural-number identities. -/
abbrev Value := Nat

/-- The kinds of IR operations the expression layer can emit, one per
operator declared in namespace op of the header (arithmetic, logical,
comparison). -/
inductive OpKind where
  | add
  | sub
  | mul
  | div
  | rem
  | xorOp
  | floorDiv
  | ceilDiv
  | andOp
  | orOp
  | negOp
  | eqOp
  | neOp
  | ltOp
  | leOp
  | gtOp
  | geOp
  deriving DecidableEq, Repr

/-- One emitted IR event, in emission order: an expression-layer operation, a
load, a store, a loop operation whose body the cursor enters, or leaving a
loop body. -/
inductive Event where
  | op (kind : OpKind) (operands : List Value) (result : Value)
  | load (base : Value) (indices : List Value) (result : Value)
  | store (stored : Value) (base : Value) (indices : List Value) (result : Value)
  | enterLoop (lbs : List Value) (ubs : List Value) (step : Int) (iv : Value)
  | exitLoop
  deriving DecidableEq, Repr

/-- Modelled from the spec: the externally owned construction state — a fresh
handle counter for the opaque handles the external layer mints, the ordered
sequence of operations emitted so far, and the insertion cursor (represented
by the current loop-nesting depth at which new operations are appended). -/
structure BuildState where
  nextId : Nat
  trace : List Event
  depth : Nat
  deriving DecidableEq, Repr

/-- Modelled from the spec: createOp(kind, operandHandles...) -> resultHandle.
Immediately materializes one IR operation at the current cursor position and
returns a fresh result handle. -/
def createOp (kind : OpKind) (operands : List Value) (s : BuildState) :
    Value × BuildState :=
  (s.nextId,
   { nextId := s.nextId + 1
     trace := s.trace ++ [Event.op kind operands s.nextId]
     depth := s.depth })

/-- Modelled from the spec: createLoad(base, indices) -> resultHandle.
Emits one load operation and returns the loaded handle. -/
def createLoad (base : Value) (indices : List Value) (s : BuildState) :
    Value × BuildState :=
  (s.nextId,
   { nextId := s.nextId + 1
     trace := s.trace ++ [Event.load base indices s.nextId]
     depth := s.depth })

/-- Modelled from the spec: createStore(value, base, indices) -> resultHandle.
Emits one store operation and returns the result handle of the store. -/
def createStore (stored : Value) (base : Value) (indices : List Value)
    (s : BuildState) : Value × BuildState :=
  (s.nextId,
   { nextId := s.nextId + 1
     trace := s.trace ++ [Event.store stored base indices s.nextId]
     depth := s.depth })

/-- Modelled from the spec: every binary operator of the expression layer is
one createOp call on its two operand handles, emitting exactly one operation
of the corresponding kind. -/
def binaryOp (kind : OpKind) (lhs rhs : Value) : BuildState → Value × BuildState :=
  createOp kind [lhs, rhs]

namespace op

/-- Header line 72: Value operator+(Value lhs, Value rhs). Body modelled from
the spec as one createOp of the addition kind. -/
def add : Value → Value → BuildState → Value × BuildState :=
  binaryOp OpKind.add

/-- Header line 73: Value operator-(Value lhs, Value rhs). -/
def sub : Value → Value → BuildState → Value × BuildState :=
  binaryOp OpKind.sub

/-- Header line 74: Value operator*(Value lhs, Value rhs). -/
def mul : Value → Value → BuildState → Value × BuildState :=
  binaryOp OpKind.mul

/-- Header line 75: Value operator/(Value lhs, Value rhs). -/
def div : Value → Value → BuildState → Value × BuildState :=
  binaryOp OpKind.div

/-- Header line 76: Value operator%(Value lhs, Value rhs). -/
def rem : Value → Value → BuildState → Value × BuildState :=
  binaryOp OpKind.rem

/-- Header line 77: Value floorDiv(Value lhs, Value rhs). -/
def floorDiv : Value → Value → BuildState → Value × BuildState :=
  binaryOp OpKind.floorDiv

/-- Header line 78: Value ceilDiv(Value lhs, Value rhs). -/
def ceilDiv : Value → Value → BuildState → Value × BuildState :=
  binaryOp OpKind.ceilDiv

/-- Header line 81: Value negate(Value value). Body modelled from the spec as
one createOp of the negation kind on its single operand. -/
def negate (v : Value) : BuildState → Value × BuildState :=
  createOp OpKind.negOp [v]

/-- Header line 82: Value operator&&(Value lhs, Value rhs). -/
def andOp : Value → Value → BuildState → Value × BuildState :=
  binaryOp OpKind.andOp

/-- Header line 83: Value operator||(Value lhs, Value rhs). -/
def orOp : Value → Value → BuildState → Value × BuildState :=
  binaryOp OpKind.orOp

/-- Header line 84: Value operator^(Value lhs, Value rhs). -/
def xorOp : Value → Value → BuildState → Value × BuildState :=
  binaryOp OpKind.xorOp

/-- Header line 87: Value eq(Value lhs, Value rhs) — the comparison tagged
with the equal kind. -/
def eq : Value → Value → BuildState → Value × BuildState :=
  binaryOp OpKind.eqOp

/-- Header line 88: Value ne(Value lhs, Value rhs). -/
def ne : Value → Value → BuildState → Value × BuildState :=
  binaryOp OpKind.neOp

/-- Header line 89: Value operator<(Value lhs, Value rhs) — the comparison
tagged with the less-than kind. -/
def lt : Value → Value → BuildState → Value × BuildState :=
  binaryOp OpKind.ltOp

/-- Header line 90: Value operator<=(Value lhs, Value rhs). -/
def le : Value → Value → BuildState → Value × BuildState :=
  binaryOp OpKind.leOp

/-- Header line 91: Value operator>(Value lhs, Value rhs). -/
def gt : Value → Value → BuildState → Value × BuildState :=
  binaryOp OpKind.gtOp

/-- Header line 92: Value operator>=(Value lhs, Value rhs). -/
def ge : Value → Value → BuildState → Value × BuildState :=
  binaryOp OpKind.geOp

end op

/-- The indexed-value view: a base addressable handle paired with an ordered
index-handle list.  The class itself is declared in the generic EDSC header,
outside this source file; its two data members named value and indices are
modelled from the spec (a transient, non-owning view). -/
structure TemplatedIndexedValue where
  value : Value
  indices : List Value
  deriving DecidableEq, Repr

namespace TemplatedIndexedValue

/-- Modelled from the spec: the read conversion of an indexed value to a
value handle (static_cast to Value in the header) emits a load at the current
index list and returns the loaded handle.  The conversion operator itself
lives in the generic EDSC header, outside this source file. -/
def toValue (iv : TemplatedIndexedValue) : BuildState → Value × BuildState :=
  createLoad iv.value iv.indices

/-- Modelled from the spec: getBase() returns the non-owned base handle. -/
def getBase (iv : TemplatedIndexedValue) : Value :=
  iv.value

/-- Header lines 97-101: operator+(Value e) is
static_cast(Value)(*this) + e — one load, then the namespace-level
addition on the loaded handle and e. -/
def add (iv : TemplatedIndexedValue) (e : Value) (s : BuildState) :
    Value × BuildState :=
  let l := iv.toValue s
  op.add l.1 e l.2

/-- Header lines 102-106: operator-(Value e). -/
def sub (iv : TemplatedIndexedValue) (e : Value) (s : BuildState) :
    Value × BuildState :=
  let l := iv.toValue s
  op.sub l.1 e l.2

/-- Header lines 107-111: operator*(Value e). -/
def mul (iv : TemplatedIndexedValue) (e : Value) (s : BuildState) :
    Value × BuildState :=
  let l := iv.toValue s
  op.mul l.1 e l.2

/-- Header lines 112-116: operator/(Value e). -/
def div (iv : TemplatedIndexedValue) (e : Value) (s : BuildState) :
    Value × BuildState :=
  let l := iv.toValue s
  op.div l.1 e l.2

/-- Header lines 117-121: operator%(Value e). -/
def rem (iv : TemplatedIndexedValue) (e : Value) (s : BuildState) :
    Value × BuildState :=
  let l := iv.toValue s
  op.rem l.1 e l.2

/-- Header lines 122-126: operator^(Value e). -/
def xorOp (iv : TemplatedIndexedValue) (e : Value) (s : BuildState) :
    Value × BuildState :=
  let l := iv.toValue s
  op.xorOp l.1 e l.2

/-- Header lines 129-133: operator+=(Value e) is
Store(*this + e, getBase(), indices) — the member addition (one load and one
addition), then a store of its result to the same base and indices; the
result handle of the store is returned. -/
def addAssign (iv : TemplatedIndexedValue) (e : Value) (s : BuildState) :
    Value × BuildState :=
  let v := iv.add e s
  createStore v.1 iv.getBase iv.indices v.2

/-- Header lines 134-138: operator-=(Value e). -/
def subAssign (iv : TemplatedIndexedValue) (e : Value) (s : BuildState) :
    Value × BuildState :=
  let v := iv.sub e s
  createStore v.1 iv.getBase iv.indices v.2

/-- Header lines 139-143: operator*=(Value e). -/
def mulAssign (iv : TemplatedIndexedValue) (e : Value) (s : BuildState) :
    Value × BuildState :=
  let v := iv.mul e s
  createStore v.1 iv.getBase iv.indices v.2

/-- Header lines 144-148: operator/=(Value e). -/
def divAssign (iv : TemplatedIndexedValue) (e : Value) (s : BuildState) :
    Value × BuildState :=
  let v := iv.div e s
  createStore v.1 iv.getBase iv.indices v.2

/-- Header lines 149-153: operator%=(Value e). -/
def remAssign (iv : TemplatedIndexedValue) (e : Value) (s : BuildState) :
    Value × BuildState :=
  let v := iv.rem e s
  createStore v.1 iv.getBase iv.indices v.2

/-- Header lines 154-158: operator^=(Value e). -/
def xorAssign (iv : TemplatedIndexedValue) (e : Value) (s : BuildState) :
    Value × BuildState :=
  let v := iv.xorOp e s
  createStore v.1 iv.getBase iv.indices v.2

/-- Header lines 161-165: operator&&(Value e) is
static_cast(Value)(*this) && e. -/
def andOp (iv : TemplatedIndexedValue) (e : Value) (s : BuildState) :
    Value × BuildState :=
  let l := iv.toValue s
  op.andOp l.1 e l.2

/-- Header lines 166-170: operator||(Value e). -/
def orOp (iv : TemplatedIndexedValue) (e : Value) (s : BuildState) :
    Value × BuildState :=
  let l := iv.toValue s
  op.orOp l.1 e l.2

/-- Header lines 173-176: the member eq(Value e) is written
return eq(value, e) — the data member value, the raw base handle, is passed
directly as the left operand and NO conversion (hence no load) is performed.
Read charitably as reaching the namespace-level eq; note that in C++ the
unqualified name eq resolves to the one-argument member itself, which hides
the namespace-level function, so the call as written cannot even resolve
once instantiated. -/
def eqOp (iv : TemplatedIndexedValue) (e : Value) : BuildState → Value × BuildState :=
  op.eq iv.value e

/-- Header lines 177-180: the member ne(Value e) is written
return ne(value, e) — same shape as the member eq: the raw base handle,
no conversion, no load. -/
def neOp (iv : TemplatedIndexedValue) (e : Value) : BuildState → Value × BuildState :=
  op.ne iv.value e

/-- Header lines 181-185: operator<(Value e) is
static_cast(Value)(*this) < e — one load, then the namespace-level
less-than on the loaded handle and e. -/
def ltOp (iv : TemplatedIndexedValue) (e : Value) (s : BuildState) :
    Value × BuildState :=
  let l := iv.toValue s
  op.lt l.1 e l.2

/-- Header lines 186-190: operator<=(Value e). -/
def leOp (iv : TemplatedIndexedValue) (e : Value) (s : BuildState) :
    Value × BuildState :=
  let l := iv.toValue s
  op.le l.1 e l.2

/-- Header lines 191-195: operator>(Value e). -/
def gtOp (iv : TemplatedIndexedValue) (e : Value) (s : BuildState) :
    Value × BuildState :=
  let l := iv.toValue s
  op.gt l.1 e l.2

/-- Header lines 196-200: operator>=(Value e). -/
def geOp (iv : TemplatedIndexedValue) (e : Value) (s : BuildState) :
    Value × BuildState :=
  let l := iv.toValue s
  op.ge l.1 e l.2

end TemplatedIndexedValue

/-- The composition the specification describes for a member operator of the
indexed value: first convert the indexed value to a value handle (exactly one
load), then apply the namespace-level binary operator of the given kind with
the loaded handle as left operand and e as right operand.  Stated from the
words of the spec, to be compared with the member definitions translated
from the source. -/
def memberViaConversion (kind : OpKind) (iv : TemplatedIndexedValue) (e : Value)
    (s : BuildState) : Value × BuildState :=
  let l := iv.toValue s
  binaryOp kind l.1 e l.2

/-- One loop level of a nest: its lower-bound handle list, upper-bound handle
list (multiple bounds encode max and min constraints) and integer step.
Declared in the generic EDSC header, outside this source file; fields
modelled from the spec. -/
structure LoopBuilder where
  lbs : List Value
  ubs : List Value
  step : Int
  deriving DecidableEq, Repr

/-- The per-level loop builders of a multi-level nest: level i pairs the
single lower bound lbs[i] with the single upper bound ubs[i] and step
steps[i], one loop level per list entry, outer level first. -/
def zipLoops : List Value → List Value → List Int → List LoopBuilder
  | lb :: lbs, ub :: ubs, st :: steps =>
      { lbs := [lb], ubs := [ub], step := st } :: zipLoops lbs ubs steps
  | _, _, _ => []

/-- The explicit nested loop builder of the header (lines 54-68): it owns the
ordered sequence of per-level loop builders, and a single-shot flag recording
whether its body-invocation operator has already run. -/
structure AffineLoopNestBuilder where
  loops : List LoopBuilder
  invoked : Bool
  deriving DecidableEq, Repr

/-- Modelled from the spec: the multi-level constructor (header lines 61-62)
takes parallel lists of induction-variable slots (here their count), lower
bounds, upper bounds and steps, one entry per nesting level.  Mismatched list
lengths and a zero step are fail-fast caller-contract violations, modelled as
none; its body lives outside this source file. -/
def AffineLoopNestBuilder.construct (numIvs : Nat) (lbs ubs : List Value)
    (steps : List Int) : Option AffineLoopNestBuilder :=
  if numIvs = lbs.length ∧ lbs.length = ubs.length ∧ ubs.length = steps.length
      ∧ ∀ st ∈ steps, st ≠ 0 then
    some { loops := zipLoops lbs ubs steps, invoked := false }
  else
    none

/-- Modelled from the spec: createLoop emits one loop operation at the cursor
and moves the cursor inside the body of that loop; the fresh handle is the
captured induction variable. -/
def enterLoop (l : LoopBuilder) (s : BuildState) : BuildState :=
  { nextId := s.nextId + 1
    trace := s.trace ++ [Event.enterLoop l.lbs l.ubs l.step s.nextId]
    depth := s.depth + 1 }

/-- Emit the loop operations of all levels, outer level first, the cursor
descending into each body in turn. -/
def enterLoops : List LoopBuilder → BuildState → BuildState
  | [], s => s
  | l :: ls, s => enterLoops ls (enterLoop l s)

/-- The loop events that entering the levels appends, given the value of the
fresh-handle counter at the start: one enterLoop event per level, outer level
first, with consecutively minted induction-variable handles. -/
def loopEnterEvents : List LoopBuilder → Nat → List Event
  | [], _ => []
  | l :: ls, n => Event.enterLoop l.lbs l.ubs l.step n :: loopEnterEvents ls (n + 1)

/-- Run the optional zero-argument body callback: if present it is applied
once, if absent the state is unchanged (the loops keep empty bodies). -/
def runBody : Option (BuildState → BuildState) → BuildState → BuildState
  | some f, s => f s
  | none, s => s

/-- Modelled from the spec: the body-invocation operator (header line 64),
whose body lives outside this source file.  A second invocation of the same
instance is a caller-contract violation, modelled as none.  Otherwise the
loop operations of every level are emitted outer-to-inner, the optional body
callback runs exactly once with the cursor inside the body of the innermost
loop, the nest is closed, and the insertion cursor is restored to its
pre-construction value via the scoped save/restore of the external cursor
API. -/
def AffineLoopNestBuilder.invoke (b : AffineLoopNestBuilder)
    (body : Option (BuildState → BuildState)) (s : BuildState) :
    Option (AffineLoopNestBuilder × BuildState) :=
  if b.invoked then
    none
  else
    let s1 := enterLoops b.loops s
    let s2 := runBody body s1
    some ({ loops := b.loops, invoked := true },
          { nextId := s2.nextId
            trace := s2.trace ++ List.replicate b.loops.length Event.exitLoop
            depth := s.depth })

/-- A deep embedding of a composed expression over operand handles: a leaf is
an existing handle, an inner node is a binary operator application of the
expression layer. -/
inductive Expr where
  | leaf (v : Value)
  | bin (kind : OpKind) (l r : Expr)
  deriving DecidableEq, Repr

/-- Evaluate a composed expression against the expression layer, emitting the
operations of sub-expressions left operand first (the fixed evaluation
order), and finally one operation for the node itself. -/
def emitExpr : Expr → BuildState → Value × BuildState
  | Expr.leaf v, s => (v, s)
  | Expr.bin kind l r, s =>
      let lv := emitExpr l s
      let rv := emitExpr r lv.2
      createOp kind [lv.1, rv.1] rv.2

/-- The number of operations a composed expression emits: one per inner
node. -/
def exprOps : Expr → Nat
  | Expr.leaf _ => 0
  | Expr.bin _ l r => exprOps l + exprOps r + 1

/-- The result handle of a composed expression as a pure function of the
fresh-handle counter at the start of its evaluation. -/
def exprResult : Expr → Nat → Value
  | Expr.leaf v, _ => v
  | Expr.bin _ l r, n => n + exprOps l + exprOps r

/-- The event sequence a composed expression appends, as a pure function of
the fresh-handle counter at the start of its evaluation. -/
def exprDelta : Expr → Nat → List Event
  | Expr.leaf _, _ => []
  | Expr.bin kind l r, n =>
      exprDelta l n ++ exprDelta r (n + exprOps l) ++
        [Event.op kind [exprResult l n, exprResult r (n + exprOps l)]
          (n + exprOps l + exprOps r)]

/-- Whether an event is a loop operation entering a body. -/
def isEnterLoop : Event → Bool
  | Event.enterLoop _ _ _ _ => true
  | _ => false

/-- Whether an event is a load. -/
def isLoadEvent : Event → Bool
  | Event.load _ _ _ => true
  | _ => false

/-- Whether an event is a store. -/
def isStoreEvent : Event → Bool
  | Event.store _ _ _ _ => true
  | _ => false

/-- The result handles minted by the events of a trace, in order. -/
def resultIds : List Event → List Value
  | [] => []
  | Event.op _ _ r :: es => r :: resultIds es
  | Event.load _ _ r :: es => r :: resultIds es
  | Event.store _ _ _ r :: es => r :: resultIds es
  | Event.enterLoop _ _ _ iv :: es => iv :: resultIds es
  | Event.exitLoop :: es => resultIds es

/-- What a successful nest construction followed by its single invocation
with body f guarantees: the builder holds one loop level per list entry; the
invocation appends exactly one loop operation per level, outer level first,
with the cursor descending to nesting depth N; the body callback is applied
exactly once, to the state whose cursor sits inside the body of the
innermost loop; and the nest is closed behind it with the cursor restored. -/
def nestEmitSpec (lbs ubs : List Value) (steps : List Int)
    (f : BuildState → BuildState) (s : BuildState)
    (b nb : AffineLoopNestBuilder) (s' : BuildState) : Prop :=
  b.loops = zipLoops lbs ubs steps ∧
  b.loops.length = lbs.length ∧
  nb.loops = b.loops ∧
  nb.invoked = true ∧
  (enterLoops b.loops s).trace = s.trace ++ loopEnterEvents b.loops s.nextId ∧
  (loopEnterEvents b.loops s.nextId).length = lbs.length ∧
  (∀ ev ∈ loopEnterEvents b.loops s.nextId, isEnterLoop ev = true) ∧
  (enterLoops b.loops s).depth = s.depth + lbs.length ∧
  s' = { nextId := (f (enterLoops b.loops s)).nextId
         trace := (f (enterLoops b.loops s)).trace
                    ++ List.replicate lbs.length Event.exitLoop
         depth := s.depth }

/-- What one application of a binary expression-layer operator guarantees:
exactly one new operation of the corresponding kind on the two operand
handles is appended, and the returned result handle is the freshly minted
one, distinct from every handle the earlier trace produced. -/
def emitsOneOp (f : Value → Value → BuildState → Value × BuildState)
    (k : OpKind) (a b : Value) (s : BuildState) : Prop :=
  (f a b s).2.trace = s.trace ++ [Event.op k [a, b] s.nextId] ∧
  (f a b s).1 = s.nextId ∧
  (f a b s).1 ∉ resultIds s.trace

/-- What the whole expression layer guarantees: every one of its operator
applications — the seven arithmetic operators, the three binary logical
operators and the unary negation, and the six comparisons — emits exactly
one new operation of the corresponding kind (the equal tag for eq, the
less-than tag for the less-than operator, and so on) and yields a fresh
result handle; moreover the addition and subtraction of the same operands,
and the equal and less-than comparisons of the same operands, return
distinct result handles. -/
def opLayerSpec (a b x y : Value) (s : BuildState) : Prop :=
  emitsOneOp op.add OpKind.add a b s ∧
  emitsOneOp op.sub OpKind.sub a b s ∧
  emitsOneOp op.mul OpKind.mul a b s ∧
  emitsOneOp op.div OpKind.div a b s ∧
  emitsOneOp op.rem OpKind.rem a b s ∧
  emitsOneOp op.floorDiv OpKind.floorDiv a b s ∧
  emitsOneOp op.ceilDiv OpKind.ceilDiv a b s ∧
  emitsOneOp op.andOp OpKind.andOp a b s ∧
  emitsOneOp op.orOp OpKind.orOp a b s ∧
  emitsOneOp op.xorOp OpKind.xorOp a b s ∧
  emitsOneOp op.eq OpKind.eqOp x y s ∧
  emitsOneOp op.ne OpKind.neOp x y s ∧
  emitsOneOp op.lt OpKind.ltOp x y s ∧
  emitsOneOp op.le OpKind.leOp x y s ∧
  emitsOneOp op.gt OpKind.gtOp x y s ∧
  emitsOneOp op.ge OpKind.geOp x y s ∧
  (op.negate a s).2.trace = s.trace ++ [Event.op OpKind.negOp [a] s.nextId] ∧
  (op.negate a s).1 = s.nextId ∧
  (op.negate a s).1 ∉ resultIds s.trace ∧
  (op.sub a b (op.add a b s).2).2.trace
      = s.trace ++ [Event.op OpKind.add [a, b] s.nextId,
                    Event.op OpKind.sub [a, b] (s.nextId + 1)] ∧
  (op.add a b s).1 ≠ (op.sub a b (op.add a b s).2).1 ∧
  (op.lt x y (op.eq x y s).2).2.trace
      = s.trace ++ [Event.op OpKind.eqOp [x, y] s.nextId,
                    Event.op OpKind.ltOp [x, y] (s.nextId + 1)] ∧
  (op.eq x y s).1 ≠ (op.lt x y (op.eq x y s).2).1

/-- What determinism of expression emission guarantees for two evaluations of
the same composed expression from two states: the same result handle, the
same appended operation sequence, and the same advance of the fresh-handle
counter. -/
def exprDetSpec (e : Expr) (s1 s2 : BuildState) : Prop :=
  (emitExpr e s1).1 = (emitExpr e s2).1 ∧
  List.drop s1.trace.length (emitExpr e s1).2.trace
      = List.drop s2.trace.length (emitExpr e s2).2.trace ∧
  (emitExpr e s1).2.nextId = s1.nextId + exprOps e ∧
  (emitExpr e s2).2.nextId = s2.nextId + exprOps e

/-- An empty initial construction state. -/
def st0 : BuildState :=
  { nextId := 0, trace := [], depth := 0 }

/-- A construction state with ten handles already minted and nothing
emitted. -/
def st10 : BuildState :=
  { nextId := 10, trace := [], depth := 0 }

/-- A construction state with ten handles minted, one emitted event and a
nonzero cursor depth, to contrast with st10. -/
def stAlt : BuildState :=
  { nextId := 10, trace := [Event.exitLoop], depth := 3 }

/-- The two-level nest builder of the witnesses: per-level bounds 0 to 5 and
0 to 6, steps one, not yet invoked. -/
def bTwo : AffineLoopNestBuilder :=
  { loops := zipLoops [0, 0] [5, 6] [1, 1], invoked := false }

/-- The same two-level builder after its single invocation. -/
def nbTwo : AffineLoopNestBuilder :=
  { loops := zipLoops [0, 0] [5, 6] [1, 1], invoked := true }

/-- A concrete body callback: one expression-layer addition of handles 0
and 1. -/
def bodyAdd : BuildState → BuildState :=
  fun s => (binaryOp OpKind.add 0 1 s).2

/-- The state reached from st0 by invoking the two-level nest with the
addition body: two loop operations outer-to-inner, the addition inside the
inner body, the nest closed, cursor restored. -/
def stTwoDone : BuildState :=
  { nextId := 3
    trace := [Event.enterLoop [0] [5] 1 0, Event.enterLoop [0] [6] 1 1,
              Event.op OpKind.add [0, 1] 2, Event.exitLoop, Event.exitLoop]
    depth := 0 }

/-- The state reached from st0 by invoking the two-level nest with no body
callback: the loops are created with empty bodies. -/
def stTwoEmpty : BuildState :=
  { nextId := 2
    trace := [Event.enterLoop [0] [5] 1 0, Event.enterLoop [0] [6] 1 1,
              Event.exitLoop, Event.exitLoop]
    depth := 0 }

/-- A concrete indexed value: base handle 7, single index handle 3. -/
def iv73 : TemplatedIndexedValue :=
  { value := 7, indices := [3] }

/-- A concrete composed expression: add the handle 1 to the product of the
handles 2 and 3. -/
def exprSample : Expr :=
  Expr.bin OpKind.add (Expr.leaf 1) (Expr.bin OpKind.mul (Expr.leaf 2) (Expr.leaf 3))

/-- The per-level builders of a multi-level nest are in bijection with the
entries of the parallel lists. -/
theorem zipLoops_length (lbs ubs : List Value) (steps : List Int)
    (h1 : lbs.length = ubs.length) (h2 : ubs.length = steps.length) :
    (zipLoops lbs ubs steps).length = lbs.length := by
  induction lbs generalizing ubs steps with
  | nil => simp [zipLoops]
  | cons lb lbs ih =>
      cases ubs with
      | nil => exact absurd h1 (by simp)
      | cons ub ubs =>
          cases steps with
          | nil => exact absurd h2 (by simp)
          | cons st steps =>
              simp only [zipLoops, List.length_cons]
              rw [ih ubs steps (by simpa using h1) (by simpa using h2)]

/-- Entering all loop levels appends exactly the loop events of the levels,
outer level first, advances the counter by one fresh induction variable per
level, and moves the cursor one nesting level deeper per level. -/
theorem enterLoops_spec (ls : List LoopBuilder) (s : BuildState) :
    enterLoops ls s =
      { nextId := s.nextId + ls.length
        trace := s.trace ++ loopEnterEvents ls s.nextId
        depth := s.depth + ls.length } := by
  induction ls generalizing s with
  | nil => simp [enterLoops, loopEnterEvents]
  | cons l ls ih =>
      simp [enterLoops, enterLoop, loopEnterEvents, ih, Nat.add_assoc,
            Nat.add_comm, Nat.add_left_comm]

/-- One loop event per nesting level. -/
theorem loopEnterEvents_length (ls : List LoopBuilder) (n : Nat) :
    (loopEnterEvents ls n).length = ls.length := by
  induction ls generalizing n with
  | nil => simp [loopEnterEvents]
  | cons l ls ih => simp [loopEnterEvents, ih]

/-- Every event entering the levels appends is a loop operation. -/
theorem loopEnterEvents_enter (ls : List LoopBuilder) (n : Nat) :
    ∀ ev ∈ loopEnterEvents ls n, isEnterLoop ev = true := by
  induction ls generalizing n with
  | nil => simp [loopEnterEvents]
  | cons l ls ih =>
      intro ev hev
      simp only [loopEnterEvents, List.mem_cons] at hev
      rcases hev with rfl | hev
      · rfl
      · exact ih (n + 1) ev hev

/-- Characterization of expression evaluation: the result handle, the
appended event sequence and the counter advance are pure functions of the
expression and of the value of the fresh-handle counter at the start; the
cursor is untouched. -/
theorem emitExpr_spec (e : Expr) (s : BuildState) :
    emitExpr e s =
      (exprResult e s.nextId,
       { nextId := s.nextId + exprOps e
         trace := s.trace ++ exprDelta e s.nextId
         depth := s.depth }) := by
  induction e generalizing s with
  | leaf v => simp [emitExpr, exprResult, exprOps, exprDelta]
  | bin kind l r ihl ihr =>
      simp [emitExpr, ihl, ihr, createOp, exprResult, exprOps, exprDelta,
            List.append_assoc, Nat.add_assoc]

/-- C1: for non-empty, equal-length lists of induction-variable slots, lower
bounds, upper bounds and steps of length N, the body-invocation operator of
the nest builder emits exactly N nested loop operations, outer-to-inner, and
applies the body callback exactly once, at nesting depth N, with the
insertion cursor positioned inside the body of the innermost loop. -/
theorem affine_nest_emits_n_loops (numIvs : Nat) (lbs ubs : List Value)
    (steps : List Int) (f : BuildState → BuildState) (s : BuildState)
    (b nb : AffineLoopNestBuilder) (s' : BuildState)
    (hne : lbs ≠ [])
    (hc : AffineLoopNestBuilder.construct numIvs lbs ubs steps = some b)
    (hi : AffineLoopNestBuilder.invoke b (some f) s = some (nb, s')) :
    nestEmitSpec lbs ubs steps f s b nb s' := by
  unfold AffineLoopNestBuilder.construct at hc
  split at hc
  next h =>
    obtain ⟨h1, h2, h3, h4⟩ := h
    rw [Option.some.injEq] at hc
    subst hc
    unfold AffineLoopNestBuilder.invoke at hi
    split at hi
    next hinv => exact absurd hinv (by simp)
    next hinv =>
      rw [Option.some.injEq, Prod.mk.injEq] at hi
      obtain ⟨hnb, hs'⟩ := hi
      have hlen : (zipLoops lbs ubs steps).length = lbs.length :=
        zipLoops_length lbs ubs steps h2 h3
      refine ⟨rfl, hlen, ?_, ?_, ?_, ?_, ?_, ?_, ?_⟩
      · rw [← hnb]
      · rw [← hnb]
      · rw [enterLoops_spec]
      · rw [loopEnterEvents_length]
        exact hlen
      · exact loopEnterEvents_enter _ _
      · rw [enterLoops_spec]
        simp only
        rw [hlen]
      · rw [← hs']
        simp only [runBody]
        rw [hlen]
  next =>
    exact Option.noConfusion hc

/-- C1 witness: a concrete two-level nest with bounds 0 to 5 and 0 to 6,
steps one, and an addition body. -/
theorem affine_nest_emits_n_loops_witness :
    ([0, 0] : List Value) ≠ [] ∧
    AffineLoopNestBuilder.construct 2 [0, 0] [5, 6] [1, 1] = some bTwo ∧
    AffineLoopNestBuilder.invoke bTwo (some bodyAdd) st0 = some (nbTwo, stTwoDone) ∧
    nestEmitSpec [0, 0] [5, 6] [1, 1] bodyAdd st0 bTwo nbTwo stTwoDone :=
  ⟨by decide, by decide, by decide,
   affine_nest_emits_n_loops 2 [0, 0] [5, 6] [1, 1] bodyAdd st0 bTwo nbTwo
     stTwoDone (by decide) (by decide) (by decide)⟩

/-- C2: after the body-invocation operator returns, the insertion cursor
equals its value before construction, whether or not a body callback was
supplied. -/
theorem nest_cursor_restored (b nb : AffineLoopNestBuilder)
    (body : Option (BuildState → BuildState)) (s s' : BuildState)
    (hi : AffineLoopNestBuilder.invoke b body s = some (nb, s')) :
    s'.depth = s.depth := by
  unfold AffineLoopNestBuilder.invoke at hi
  split at hi
  next => exact Option.noConfusion hi
  next =>
    rw [Option.some.injEq, Prod.mk.injEq] at hi
    obtain ⟨h1, h2⟩ := hi
    rw [← h2]

/-- C2 witness: the concrete two-level nest restores the cursor both with
the addition body and with no body. -/
theorem nest_cursor_restored_witness :
    AffineLoopNestBuilder.invoke bTwo (some bodyAdd) st0 = some (nbTwo, stTwoDone) ∧
    stTwoDone.depth = st0.depth ∧
    AffineLoopNestBuilder.invoke bTwo none st0 = some (nbTwo, stTwoEmpty) ∧
    stTwoEmpty.depth = st0.depth :=
  ⟨by decide,
   nest_cursor_restored bTwo nbTwo (some bodyAdd) st0 stTwoDone (by decide),
   by decide,
   nest_cursor_restored bTwo nbTwo none st0 stTwoEmpty (by decide)⟩

/-- C8: invoking the body-invocation operator a second time on the same
builder instance does not succeed — construction is single-shot per
instance. -/
theorem nest_reinvoke_rejected (b nb : AffineLoopNestBuilder)
    (body body2 : Option (BuildState → BuildState)) (s s' s2 : BuildState)
    (hi : AffineLoopNestBuilder.invoke b body s = some (nb, s')) :
    AffineLoopNestBuilder.invoke nb body2 s2 = none := by
  unfold AffineLoopNestBuilder.invoke at hi
  split at hi
  next => exact Option.noConfusion hi
  next =>
    rw [Option.some.injEq, Prod.mk.injEq] at hi
    obtain ⟨h1, h2⟩ := hi
    subst h1
    simp [AffineLoopNestBuilder.invoke]

/-- C8 witness: the concrete two-level nest rejects a second invocation. -/
theorem nest_reinvoke_rejected_witness :
    AffineLoopNestBuilder.invoke bTwo (some bodyAdd) st0 = some (nbTwo, stTwoDone) ∧
    AffineLoopNestBuilder.invoke nbTwo (some bodyAdd) st0 = none :=
  ⟨by decide,
   nest_reinvoke_rejected bTwo nbTwo (some bodyAdd) (some bodyAdd) st0 stTwoDone
     st0 (by decide)⟩

/-- C9: a call of the multi-level nest constructor whose four parallel lists
do not all have equal length, or whose step list holds a zero, is a
fail-fast caller-contract violation — no builder is produced. -/
theorem nest_construct_contract (numIvs : Nat) (lbs ubs : List Value)
    (steps : List Int)
    (h : ¬(numIvs = lbs.length ∧ lbs.length = ubs.length ∧
           ubs.length = steps.length) ∨ ∃ st ∈ steps, st = 0) :
    AffineLoopNestBuilder.construct numIvs lbs ubs steps = none := by
  unfold AffineLoopNestBuilder.construct
  rw [if_neg]
  rintro ⟨h1, h2, h3, h4⟩
  rcases h with hlen | ⟨st, hmem, hzero⟩
  · exact hlen ⟨h1, h2, h3⟩
  · exact h4 st hmem hzero

/-- C9 witness: one induction-variable slot against two bounds per list is
rejected, and so is a two-level call whose second step is zero. -/
theorem nest_construct_contract_witness :
    (¬((1 : Nat) = ([0, 0] : List Value).length ∧
        ([0, 0] : List Value).length = ([5, 6] : List Value).length ∧
        ([5, 6] : List Value).length = ([1, 1] : List Int).length) ∨
      ∃ st ∈ ([1, 1] : List Int), st = 0) ∧
    AffineLoopNestBuilder.construct 1 [0, 0] [5, 6] [1, 1] = none ∧
    (¬((2 : Nat) = ([0, 0] : List Value).length ∧
        ([0, 0] : List Value).length = ([5, 6] : List Value).length ∧
        ([5, 6] : List Value).length = ([1, 0] : List Int).length) ∨
      ∃ st ∈ ([1, 0] : List Int), st = 0) ∧
    AffineLoopNestBuilder.construct 2 [0, 0] [5, 6] [1, 0] = none :=
  ⟨Or.inl (by decide),
   nest_construct_contract 1 [0, 0] [5, 6] [1, 1] (Or.inl (by decide)),
   Or.inr ⟨0, by decide, rfl⟩,
   nest_construct_contract 2 [0, 0] [5, 6] [1, 0] (Or.inr ⟨0, by decide, rfl⟩)⟩

/-- C3: each compound-assignment operator of an indexed value with base B
and indices I emits exactly one load of (B, I), then one operation of the
corresponding kind on the loaded handle and e, then exactly one store of
that result back to the same (B, I), and returns the result handle of the
store. -/
theorem compound_assign_one_load_one_store (iv : TemplatedIndexedValue)
    (e : Value) (s : BuildState) :
    ((iv.addAssign e s).2.trace = s.trace ++
        [Event.load iv.value iv.indices s.nextId,
         Event.op OpKind.add [s.nextId, e] (s.nextId + 1),
         Event.store (s.nextId + 1) iv.value iv.indices (s.nextId + 2)] ∧
      (iv.addAssign e s).1 = s.nextId + 2) ∧
    ((iv.subAssign e s).2.trace = s.trace ++
        [Event.load iv.value iv.indices s.nextId,
         Event.op OpKind.sub [s.nextId, e] (s.nextId + 1),
         Event.store (s.nextId + 1) iv.value iv.indices (s.nextId + 2)] ∧
      (iv.subAssign e s).1 = s.nextId + 2) ∧
    ((iv.mulAssign e s).2.trace = s.trace ++
        [Event.load iv.value iv.indices s.nextId,
         Event.op OpKind.mul [s.nextId, e] (s.nextId + 1),
         Event.store (s.nextId + 1) iv.value iv.indices (s.nextId + 2)] ∧
      (iv.mulAssign e s).1 = s.nextId + 2) ∧
    ((iv.divAssign e s).2.trace = s.trace ++
        [Event.load iv.value iv.indices s.nextId,
         Event.op OpKind.div [s.nextId, e] (s.nextId + 1),
         Event.store (s.nextId + 1) iv.value iv.indices (s.nextId + 2)] ∧
      (iv.divAssign e s).1 = s.nextId + 2) ∧
    ((iv.remAssign e s).2.trace = s.trace ++
        [Event.load iv.value iv.indices s.nextId,
         Event.op OpKind.rem [s.nextId, e] (s.nextId + 1),
         Event.store (s.nextId + 1) iv.value iv.indices (s.nextId + 2)] ∧
      (iv.remAssign e s).1 = s.nextId + 2) ∧
    ((iv.xorAssign e s).2.trace = s.trace ++
        [Event.load iv.value iv.indices s.nextId,
         Event.op OpKind.xorOp [s.nextId, e] (s.nextId + 1),
         Event.store (s.nextId + 1) iv.value iv.indices (s.nextId + 2)] ∧
      (iv.xorAssign e s).1 = s.nextId + 2) ∧
    List.countP isLoadEvent (iv.addAssign e s).2.trace
        = List.countP isLoadEvent s.trace + 1 ∧
    List.countP isStoreEvent (iv.addAssign e s).2.trace
        = List.countP isStoreEvent s.trace + 1 := by
  simp [TemplatedIndexedValue.addAssign, TemplatedIndexedValue.subAssign,
        TemplatedIndexedValue.mulAssign, TemplatedIndexedValue.divAssign,
        TemplatedIndexedValue.remAssign, TemplatedIndexedValue.xorAssign,
        TemplatedIndexedValue.add, TemplatedIndexedValue.sub,
        TemplatedIndexedValue.mul, TemplatedIndexedValue.div,
        TemplatedIndexedValue.rem, TemplatedIndexedValue.xorOp,
        TemplatedIndexedValue.toValue, TemplatedIndexedValue.getBase,
        op.add, op.sub, op.mul, op.div, op.rem, op.xorOp,
        binaryOp, createOp, createLoad, createStore,
        List.append_assoc, List.countP_append, List.countP_cons,
        isLoadEvent, isStoreEvent]

/-- C5: a non-mutating operator application on an indexed value emits a load
and the expression-layer operation only — no store is emitted, so the value
at the indexed location is not written back. -/
theorem nonmutating_emits_no_store (iv : TemplatedIndexedValue) (e : Value)
    (s : BuildState) :
    ((iv.add e s).2.trace = s.trace ++
        [Event.load iv.value iv.indices s.nextId,
         Event.op OpKind.add [s.nextId, e] (s.nextId + 1)] ∧
      List.countP isStoreEvent (iv.add e s).2.trace
        = List.countP isStoreEvent s.trace) ∧
    ((iv.sub e s).2.trace = s.trace ++
        [Event.load iv.value iv.indices s.nextId,
         Event.op OpKind.sub [s.nextId, e] (s.nextId + 1)] ∧
      List.countP isStoreEvent (iv.sub e s).2.trace
        = List.countP isStoreEvent s.trace) ∧
    ((iv.mul e s).2.trace = s.trace ++
        [Event.load iv.value iv.indices s.nextId,
         Event.op OpKind.mul [s.nextId, e] (s.nextId + 1)] ∧
      List.countP isStoreEvent (iv.mul e s).2.trace
        = List.countP isStoreEvent s.trace) ∧
    ((iv.div e s).2.trace = s.trace ++
        [Event.load iv.value iv.indices s.nextId,
         Event.op OpKind.div [s.nextId, e] (s.nextId + 1)] ∧
      List.countP isStoreEvent (iv.div e s).2.trace
        = List.countP isStoreEvent s.trace) ∧
    ((iv.rem e s).2.trace = s.trace ++
        [Event.load iv.value iv.indices s.nextId,
         Event.op OpKind.rem [s.nextId, e] (s.nextId + 1)] ∧
      List.countP isStoreEvent (iv.rem e s).2.trace
        = List.countP isStoreEvent s.trace) ∧
    ((iv.xorOp e s).2.trace = s.trace ++
        [Event.load iv.value iv.indices s.nextId,
         Event.op OpKind.xorOp [s.nextId, e] (s.nextId + 1)] ∧
      List.countP isStoreEvent (iv.xorOp e s).2.trace
        = List.countP isStoreEvent s.trace) ∧
    ((iv.andOp e s).2.trace = s.trace ++
        [Event.load iv.value iv.indices s.nextId,
         Event.op OpKind.andOp [s.nextId, e] (s.nextId + 1)] ∧
      List.countP isStoreEvent (iv.andOp e s).2.trace
        = List.countP isStoreEvent s.trace) ∧
    ((iv.orOp e s).2.trace = s.trace ++
        [Event.load iv.value iv.indices s.nextId,
         Event.op OpKind.orOp [s.nextId, e] (s.nextId + 1)] ∧
      List.countP isStoreEvent (iv.orOp e s).2.trace
        = List.countP isStoreEvent s.trace) := by
  simp [TemplatedIndexedValue.add, TemplatedIndexedValue.sub,
        TemplatedIndexedValue.mul, TemplatedIndexedValue.div,
        TemplatedIndexedValue.rem, TemplatedIndexedValue.xorOp,
        TemplatedIndexedValue.andOp, TemplatedIndexedValue.orOp,
        TemplatedIndexedValue.toValue,
        op.add, op.sub, op.mul, op.div, op.rem, op.xorOp, op.andOp, op.orOp,
        binaryOp, createOp, createLoad,
        List.append_assoc, List.countP_append, List.countP_cons,
        isStoreEvent]

/-- C4 evidence (code bug): the source writes the member comparisons eq and
ne as return eq(value, e) and return ne(value, e) — the raw base handle is
passed directly to the comparison, with no conversion to a value handle and
hence no load, unlike the sibling member comparisons; evaluated at the
concrete indexed value with base 7, index 3, operand 5 and counter 10, the
member eq and the member ne emit zero load operations where the member
less-than emits one. -/
theorem eq_ne_members_emit_no_load :
    (TemplatedIndexedValue.eqOp iv73 5 st10).2.trace
        = [Event.op OpKind.eqOp [7, 5] 10] ∧
    List.countP isLoadEvent (TemplatedIndexedValue.eqOp iv73 5 st10).2.trace = 0 ∧
    (TemplatedIndexedValue.neOp iv73 5 st10).2.trace
        = [Event.op OpKind.neOp [7, 5] 10] ∧
    List.countP isLoadEvent (TemplatedIndexedValue.neOp iv73 5 st10).2.trace = 0 ∧
    List.countP isLoadEvent (TemplatedIndexedValue.ltOp iv73 5 st10).2.trace = 1 ∧
    List.countP isLoadEvent (TemplatedIndexedValue.leOp iv73 5 st10).2.trace = 1 ∧
    List.countP isLoadEvent (TemplatedIndexedValue.gtOp iv73 5 st10).2.trace = 1 ∧
    List.countP isLoadEvent (TemplatedIndexedValue.geOp iv73 5 st10).2.trace = 1 := by
  decide

/-- Any operator defined as one binaryOp call appends exactly one operation
of its kind and returns the freshly minted handle, fresh with respect to
every handle of the earlier trace. -/
theorem emitsOneOp_binaryOp (k : OpKind) (a b : Value) (s : BuildState)
    (hfresh : ∀ r ∈ resultIds s.trace, r < s.nextId) :
    emitsOneOp (binaryOp k) k a b s := by
  refine ⟨?_, ?_, ?_⟩
  · simp [binaryOp, createOp]
  · simp [binaryOp, createOp]
  · intro hmem
    exact absurd (hfresh _ hmem) (by simp [binaryOp, createOp])

/-- C6: each expression-layer operator application — every arithmetic,
logical and comparison operator — emits exactly one new operation of the
corresponding kind and yields a fresh result handle; the addition and
subtraction of the same operands, and the equal and less-than comparisons
of the same operands, return distinct result handles. -/
theorem op_layer_one_op_fresh_distinct (a b x y : Value) (s : BuildState)
    (hfresh : ∀ r ∈ resultIds s.trace, r < s.nextId) :
    opLayerSpec a b x y s := by
  refine ⟨emitsOneOp_binaryOp OpKind.add a b s hfresh,
          emitsOneOp_binaryOp OpKind.sub a b s hfresh,
          emitsOneOp_binaryOp OpKind.mul a b s hfresh,
          emitsOneOp_binaryOp OpKind.div a b s hfresh,
          emitsOneOp_binaryOp OpKind.rem a b s hfresh,
          emitsOneOp_binaryOp OpKind.floorDiv a b s hfresh,
          emitsOneOp_binaryOp OpKind.ceilDiv a b s hfresh,
          emitsOneOp_binaryOp OpKind.andOp a b s hfresh,
          emitsOneOp_binaryOp OpKind.orOp a b s hfresh,
          emitsOneOp_binaryOp OpKind.xorOp a b s hfresh,
          emitsOneOp_binaryOp OpKind.eqOp x y s hfresh,
          emitsOneOp_binaryOp OpKind.neOp x y s hfresh,
          emitsOneOp_binaryOp OpKind.ltOp x y s hfresh,
          emitsOneOp_binaryOp OpKind.leOp x y s hfresh,
          emitsOneOp_binaryOp OpKind.gtOp x y s hfresh,
          emitsOneOp_binaryOp OpKind.geOp x y s hfresh,
          ?_, ?_, ?_, ?_, ?_, ?_, ?_⟩
  · simp [op.negate, createOp]
  · simp [op.negate, createOp]
  · intro hmem
    exact absurd (hfresh _ hmem) (by simp [op.negate, createOp])
  · simp [op.add, op.sub, binaryOp, createOp, List.append_assoc]
  · simp [op.add, op.sub, binaryOp, createOp]
  · simp [op.eq, op.lt, binaryOp, createOp, List.append_assoc]
  · simp [op.eq, op.lt, binaryOp, createOp]

/-- C6 witness: concrete operand handles 1, 2, 3, 4 in a state with ten
minted handles and an empty trace. -/
theorem op_layer_witness :
    (∀ r ∈ resultIds st10.trace, r < st10.nextId) ∧ opLayerSpec 1 2 3 4 st10 :=
  ⟨by decide, op_layer_one_op_fresh_distinct 1 2 3 4 st10 (by decide)⟩

/-- C7: expression emission is deterministic — two evaluations of the same
composed expression from states agreeing on the fresh-handle counter return
the same result handle, append the same operation sequence in the same
order, and advance the counter identically, whatever was emitted before. -/
theorem expr_emission_deterministic (e : Expr) (s1 s2 : BuildState)
    (h : s1.nextId = s2.nextId) :
    exprDetSpec e s1 s2 := by
  unfold exprDetSpec
  simp [emitExpr_spec, h, List.drop_left]

/-- C7 witness: the sample expression evaluated from the empty ten-handle
state and from a state with a different trace and cursor but the same
counter. -/
theorem expr_emission_deterministic_witness :
    st10.nextId = stAlt.nextId ∧ exprDetSpec exprSample st10 stAlt :=
  ⟨rfl, expr_emission_deterministic exprSample st10 stAlt rfl⟩

/-- C10: every member operator of the indexed value among addition,
subtraction, multiplication, division, remainder, xor, logical and, logical
or, less-than, less-or-equal, greater-than and greater-or-equal equals, in
result handle and emitted state, the composition the spec describes: one
conversion of the indexed value to a value handle (a load) followed by the
namespace-level operator of the same kind with the loaded handle on the
left. -/
theorem member_refines_conversion (iv : TemplatedIndexedValue) (e : Value)
    (s : BuildState) :
    iv.add e s = memberViaConversion OpKind.add iv e s ∧
    iv.sub e s = memberViaConversion OpKind.sub iv e s ∧
    iv.mul e s = memberViaConversion OpKind.mul iv e s ∧
    iv.div e s = memberViaConversion OpKind.div iv e s ∧
    iv.rem e s = memberViaConversion OpKind.rem iv e s ∧
    iv.xorOp e s = memberViaConversion OpKind.xorOp iv e s ∧
    iv.andOp e s = memberViaConversion OpKind.andOp iv e s ∧
    iv.orOp e s = memberViaConversion OpKind.orOp iv e s ∧
    iv.ltOp e s = memberViaConversion OpKind.ltOp iv e s ∧
    iv.leOp e s = memberViaConversion OpKind.leOp iv e s ∧
    iv.gtOp e s = memberViaConversion OpKind.gtOp iv e s ∧
    iv.geOp e s = memberViaConversion OpKind.geOp iv e s :=
  ⟨rfl, rfl, rfl, rfl, rfl, rfl, rfl, rfl, rfl, rfl, rfl, rfl⟩

end edsc
end mlir
